import Mathlib

/-!
A shallow embedding of the holochain action/validation pipeline
(`action.go`) and of the bootstrap client (`bootstrap.go`), together with
theorems about the claims of the specification.

Go machine values are modelled as follows: strings stay `String`, hashes
and peer IDs are their textual forms (`Hash`, `PeerID` below), Go errors
become the inductive `HCErr`, fallible Go functions return `Except HCErr`,
a Go `panic` becomes the `RcvOut.panicked` outcome, and external
collaborators (the ribosome, `encoding/json`, the hash spec, the peer
transport) are function-valued fields of an explicit environment `Env`.
Functions of the repository that are only declared by the surveyed files
(the chain and DHT store primitives) are modelled from the specification
and marked `Modelled from the spec:` in their doc comments.
-/

set_option autoImplicit false

namespace HolochainModel

/-- Textual form of a content address (Go `Hash`; `Hash.String()` is the identity here). -/
abbrev Hash := String

/-- A libp2p peer identifier in its B58 textual form (Go `peer.ID`; `prepareSources`
encodes via `peer.IDB58Encode`, modelled as the identity). -/
abbrev PeerID := String

/-- The error values of the pipeline.  Distinguished sentinels of the source
(`ValidationFailedErr`, `ErrHashNotFound`, `ErrHashModified`, `ErrHashDeleted`,
`ErrHashRejected`, `ErrEntryTypeMismatch`, `ErrWrongNargs`, `NonDHTAction`,
`NonCallableAction`) get their own constructors; every other `errors.New` /
`fmt.Errorf` value is a `msg`. -/
inductive HCErr where
  | validationFailed
  | hashNotFound
  | hashModified
  | hashDeleted
  | hashRejected
  | entryTypeMismatch
  | wrongNargs
  | nonDHTAction
  | nonCallableAction
  | msg (s : String)
deriving DecidableEq, Repr

/-- The `%v` rendering of an error value (used where the source wraps an
error inside another error message). -/
def HCErr.render : HCErr → String
  | .validationFailed => "Validation Failed"
  | .hashNotFound => "hash not found"
  | .hashModified => "hash modified"
  | .hashDeleted => "hash deleted"
  | .hashRejected => "hash rejected"
  | .entryTypeMismatch => "entry type mismatch"
  | .wrongNargs => "wrong number of arguments"
  | .nonDHTAction => "Not a DHT action"
  | .nonCallableAction => "Not a callable action"
  | .msg s => s

/-- Argument types of actions (Go `ArgType` constants in `action.go`). -/
inductive ArgType where
  | hashArg
  | stringArg
  | entryArg
  | intArg
  | boolArg
  | mapArg
  | toStrArg
  | argsArg
deriving DecidableEq, Repr

/-- One declared argument of an action (Go `Arg`; the reflective `MapType`
and the runtime `value` play no role in `checkArgCount` and are omitted). -/
structure Arg where
  Name : String
  Typ : ArgType
  Optional : Bool
deriving DecidableEq, Repr

/-- Go `checkArgCount(args, l)`: counts the non-optional arguments as `min`
and fails with `ErrWrongNargs` when `l < min || l > len(args)`. -/
def checkArgCount (args : List Arg) (l : Nat) : Option HCErr :=
  let min := (args.filter (fun a => !a.Optional)).length
  if l < min ∨ l > args.length then some HCErr.wrongNargs else none

/-- The number of non-optional arguments in an argument list. -/
def requiredCount (args : List Arg) : Nat :=
  (args.filter (fun a => !a.Optional)).length

/-- C7: `checkArgCount(args, n)` returns no error iff
`required(args) ≤ n ≤ len(args)`, and any error it returns is `ErrWrongNargs`. -/
theorem C7_checkArgCount_iff (args : List Arg) (n : Nat) :
    checkArgCount args n =
      if requiredCount args ≤ n ∧ n ≤ args.length then none else some HCErr.wrongNargs := by
  simp only [checkArgCount, requiredCount]
  by_cases h : (args.filter (fun a => !a.Optional)).length ≤ n ∧ n ≤ args.length
  · rw [if_neg (by omega), if_pos h]
  · rw [if_pos (by omega), if_neg h]

/-! ### Bootstrap client (`bootstrap.go`) -/

/-- The body a node publishes to the bootstrap server (Go `BSReq`). -/
structure BSReq where
  Version : Nat
  NodeID : String
  NodeAddr : String
  ReturnAddr : String
deriving DecidableEq, Repr

/-- One entry of the bootstrap server's reply (Go `BSResp`; `LastSeen` is an
opaque timestamp). -/
structure BSResp where
  Req : BSReq
  Remote : String
  LastSeen : Nat
deriving DecidableEq, Repr

/-- Splitting a character list at every occurrence of `sep` (helper for `goSplit`). -/
def splitCharList (sep : Char) : List Char → List (List Char)
  | [] => [[]]
  | c :: rest =>
    match splitCharList sep rest with
    | [] => [[c]]
    | g :: gs => if c = sep then [] :: g :: gs else (c :: g) :: gs

/-- Go `strings.Split(s, sep)` for a one-character separator (the bootstrap
client only splits on `":"` and `"/"`).  Like the Go function it returns
`[""]` on the empty string and never returns an empty list. -/
def goSplit (s : String) (sep : Char) : List String :=
  (splitCharList sep s.toList).map (fun l => String.mk l)

/-- The host/port pair `checkBSResponses` derives for one response entry:
if `ReturnAddr` is non-empty and splits on `:` into exactly two parts they
become host and port; whenever the host so obtained is still empty, the host
is the part of `Remote` before the first `:` and the port is the last
`/`-separated segment of `NodeAddr`. -/
def bsHostPort (r : BSResp) : String × String :=
  let hp :=
    if r.Req.ReturnAddr ≠ "" then
      let x := goSplit r.Req.ReturnAddr ':'
      if x.length = 2 then (x.headD "", (x.drop 1).headD "") else ("", "")
    else ("", "")
  if hp.1 = "" then
    let x := goSplit r.Remote ':'
    let y := goSplit r.Req.NodeAddr '/'
    (x.headD "", y.getLastD "")
  else hp

/-- The multi-address `checkBSResponses` synthesizes:
`/ip4/<host>/tcp/<port>` (argument of `ma.NewMultiaddr`). -/
def bsMultiaddr (r : BSResp) : String :=
  let hp := bsHostPort r
  "/ip4/" ++ hp.1 ++ "/tcp/" ++ hp.2

/-- Go `checkBSResponses`: for each response whose `NodeID` decodes
(`peer.IDB58Decode`, modelled by the parameter `decode`) and whose
synthesized multi-address parses (`ma.NewMultiaddr`, modelled by the
predicate `maOk`), every peer other than the node itself is handed to the
transport's peer-add operation (`h.AddPeer`).  The returned list is the
sequence of `AddPeer` calls, in iteration order; the logging and the
function's error return value (which the claims do not touch) are omitted. -/
def checkBSResponses (decode : String → Option PeerID) (maOk : String → Bool)
    (myNodeID : String) (nodes : List BSResp) : List (PeerID × String) :=
  nodes.filterMap (fun r =>
    match decode r.Req.NodeID with
    | none => none
    | some id =>
      let addr := bsMultiaddr r
      if maOk addr then
        if r.Req.NodeID ≠ myNodeID then some (id, addr) else none
      else none)

/-- A decode function accepting every NodeID (the concrete instantiation
used for the literal scenario of the claim). -/
def bsDecodeAll : String → Option PeerID := fun s => some s

/-- A multi-address validity predicate accepting every address. -/
def bsMaOkAll : String → Bool := fun _ => true

/-- The literal response entry of the claim's scenario. -/
def bsExample : BSResp :=
  { Req := { Version := 1, NodeID := "QmUfY4W86CqZgn1S1jkuoLUSgTnDyJEEaFBvhN3e3LRHjo",
             NodeAddr := "/ip4/1.2.3.4/tcp/4001", ReturnAddr := "5.6.7.8:4001" },
    Remote := "9.9.9.9:1234", LastSeen := 0 }

/-- C8: the synthesized multi-address prefers the `ReturnAddr` host/port when
`ReturnAddr` is non-empty and splits into exactly a (non-empty) host and a
port, and otherwise combines `Remote`'s host with the trailing segment of
`NodeAddr`; the literal scenario yields `/ip4/5.6.7.8/tcp/4001` and offers it
to the transport; and the `AddPeer` trace is exactly the decodable,
well-addressed, non-self entries (so the node never adds itself). -/
theorem C8_checkBSResponses_addr_and_peers :
    (∀ r : BSResp,
      bsMultiaddr r =
        if r.Req.ReturnAddr ≠ "" ∧ (goSplit r.Req.ReturnAddr ':').length = 2 ∧
            (goSplit r.Req.ReturnAddr ':').headD "" ≠ "" then
          "/ip4/" ++ (goSplit r.Req.ReturnAddr ':').headD "" ++ "/tcp/" ++
            ((goSplit r.Req.ReturnAddr ':').drop 1).headD ""
        else
          "/ip4/" ++ (goSplit r.Remote ':').headD "" ++ "/tcp/" ++
            (goSplit r.Req.NodeAddr '/').getLastD "")
    ∧ (∀ (decode : String → Option PeerID) (maOk : String → Bool)
          (myNodeID : String) (nodes : List BSResp),
        checkBSResponses decode maOk myNodeID nodes =
          nodes.filterMap (fun r =>
            match decode r.Req.NodeID with
            | none => none
            | some id =>
              if maOk (bsMultiaddr r) = true ∧ r.Req.NodeID ≠ myNodeID then
                some (id, bsMultiaddr r)
              else none))
    ∧ bsMultiaddr bsExample = "/ip4/5.6.7.8/tcp/4001"
    ∧ checkBSResponses bsDecodeAll bsMaOkAll "QmSomeOtherNode" [bsExample] =
        [("QmUfY4W86CqZgn1S1jkuoLUSgTnDyJEEaFBvhN3e3LRHjo", "/ip4/5.6.7.8/tcp/4001")]
    ∧ checkBSResponses bsDecodeAll bsMaOkAll bsExample.Req.NodeID [bsExample] = [] := by
  refine ⟨?_, ?_, by decide, by decide, by decide⟩
  · intro r
    by_cases hne : r.Req.ReturnAddr = ""
    · simp [bsMultiaddr, bsHostPort, hne]
    · by_cases hlen : (goSplit r.Req.ReturnAddr ':').length = 2
      · by_cases hh : (goSplit r.Req.ReturnAddr ':').head?.getD "" = ""
        · simp [bsMultiaddr, bsHostPort, hne, hlen, hh]
        · simp [bsMultiaddr, bsHostPort, hne, hlen, hh]
      · simp [bsMultiaddr, bsHostPort, hne, hlen]
  · intro decode maOk myNodeID nodes
    simp only [checkBSResponses]
    apply List.filterMap_congr
    intro r _
    cases decode r.Req.NodeID with
    | none => rfl
    | some id =>
      by_cases hm : maOk (bsMultiaddr r) = true <;>
        by_cases hs : r.Req.NodeID = myNodeID <;>
          simp [hm, hs]

/-! ### Entry / header / chain data model (`action.go` and its collaborators) -/

/-- A gob-serialized entry whose content is a string (Go `GobEntry`; its
`Content()` is the field `C`). -/
structure GobEntry where
  C : String
deriving DecidableEq, Repr

/-- The payload of a deletion record (Go `DelEntry = {Hash, Message}`). -/
structure DelEntry where
  Hash : String
  Message : String
deriving DecidableEq, Repr

/-- One link of a links entry (Go `Link`); `LinkAction` is compared against
the `DelAction` change constant. -/
structure Link where
  Base : String
  Link : String
  Tag : String
  LinkAction : String
deriving DecidableEq, Repr

/-- The decoded content of a links entry (Go `LinksEntry`). -/
structure LinksEntry where
  Links : List Link
deriving DecidableEq, Repr

/-- The `DataFormat` of an `EntryDef` (`DataFormatJSON` and `DataFormatLinks`
are the formats `action.go` branches on; the remaining formats behave
like `raw`). -/
inductive DataFormat where
  | json
  | links
  | raw
  | str
deriving DecidableEq, Repr

/-- Per-entry-type sharing policy. -/
inductive Sharing where
  | public
  | priv
deriving DecidableEq, Repr

/-- The input handed to an `EntryDef`'s schema validator: either the
structured value produced by `json.Unmarshal` (carried opaquely) or the
opaque entry itself. -/
inductive SVInput where
  | jsonV (v : String)
  | entryV (e : GobEntry)
deriving DecidableEq, Repr

/-- An application entry-type definition (Go `EntryDef`): data format,
sharing policy and an optional schema validator (`d.validator`). -/
structure EntryDef where
  Name : String
  DataFormat : DataFormat
  Sharing : Sharing
  validator : Option (SVInput → Except HCErr Unit)

/-- Modelled from the spec: the change constants of a header's
`StatusChange` (`ModAction`, `DelAction`); their concrete values live in
the chain component, only their distinctness matters here. -/
def ModAction : String := "m"

/-- Modelled from the spec: the `DelAction` change constant; also the
`LinkAction` value marking a link for deletion. -/
def DelAction : String := "d"

/-- The `{Action, Hash}` change record carried by mod/del headers. -/
structure StatusChange where
  Action : String
  Hash : String
deriving DecidableEq, Repr

/-- A chain header (Go `Header`; the field `Typ` models Go's `Type`). -/
structure Header where
  Time : Nat
  Typ : String
  EntryLink : Hash
  HeaderLink : Option Hash
  TypeLink : Option Hash
  Change : Option StatusChange
  Sig : String
deriving DecidableEq, Repr

/-- The all-zero header (Go zero value). -/
def zeroHeader : Header :=
  { Time := 0, Typ := "", EntryLink := "", HeaderLink := none, TypeLink := none,
    Change := none, Sig := "" }

/-- The zero entry (Go zero value of `GobEntry`). -/
def zeroEntry : GobEntry := { C := "" }

/-- System entry type name: the DNA entry. -/
def DNAEntryType : String := "%dna"

/-- System entry type name: the agent entry. -/
def AgentEntryType : String := "%agent"

/-- System entry type name: the key entry. -/
def KeyEntryType : String := "%key"

/-- One finalized element of the local chain: the header's own hash, the
header, and the entry it commits. -/
structure ChainItem where
  headerHash : Hash
  header : Header
  entry : GobEntry
deriving DecidableEq, Repr

/-- The local append-only chain of one agent. -/
structure Chain where
  items : List ChainItem
deriving DecidableEq, Repr

/-- Go `chain.GetEntry(hash)`: the entry and entry type stored under an
entry hash, or `ErrHashNotFound`. -/
def Chain.GetEntry (c : Chain) (hash : Hash) : Except HCErr (GobEntry × String) :=
  match c.items.find? (fun it => it.header.EntryLink = hash) with
  | some it => .ok (it.entry, it.header.Typ)
  | none => .error .hashNotFound

/-- Go `chain.GetEntryHeader(hash)`: the header whose `EntryLink` is `hash`,
or `ErrHashNotFound`. -/
def Chain.GetEntryHeader (c : Chain) (hash : Hash) : Except HCErr Header :=
  match c.items.find? (fun it => it.header.EntryLink = hash) with
  | some it => .ok it.header
  | none => .error .hashNotFound

/-- An opaque validation package shipped between peers (Go `Package`). -/
abbrev Package := String

/-- An opaque assembled validation package (Go `ValidationPackage`). -/
abbrev VPkg := String

/-- An opaque packaging request (Go `PackagingReq`). -/
abbrev PackagingReq := String

/-- The `{Type, Entry, Header, Package}` reply of the validation
back-channel (Go `ValidateResponse`; `Typ` models Go's `Type`). -/
structure ValidateResponse where
  Typ : String
  Entry : GobEntry
  Header : Header
  Package : Package
deriving DecidableEq, Repr

/-- Wire message kinds of the two peer protocols. -/
inductive MsgType where
  | APP_MESSAGE
  | PUT_REQUEST
  | GET_REQUEST
  | MOD_REQUEST
  | DEL_REQUEST
  | LINK_REQUEST
  | GETLINK_REQUEST
  | VALIDATE_PUT_REQUEST
  | VALIDATE_MOD_REQUEST
  | VALIDATE_DEL_REQUEST
  | VALIDATE_LINK_REQUEST
deriving DecidableEq, Repr

/-- A received peer message with a typed body (Go `Message`; the wire kind
is fixed by the handler the dispatcher routed to). -/
structure Message (β : Type) where
  From : PeerID
  Body : β
deriving DecidableEq, Repr

/-- The validating/committing action variants of `action.go` that
participate in the validation pipeline (`commitA`/`putA`/`modA`/`delA`/
`linkA` model `ActionCommit`/`ActionPut`/`ActionMod`/`ActionDel`/
`ActionLink`). -/
inductive VAct where
  | commitA (entryType : String) (entry : GobEntry)
  | putA (entryType : String) (entry : GobEntry)
  | modA (entryType : String) (entry : GobEntry) (replaces : String)
  | delA (entryType : String) (entry : DelEntry)
  | linkA (entryType : String) (links : List Link) (validationBase : String)

/-- The committing actions (`CommittingAction` implementors whose `Do` goes
through `doCommit`). -/
inductive CAct where
  | commitA (entryType : String) (entry : GobEntry)
  | modA (entryType : String) (entry : GobEntry) (replaces : String)
  | delA (entryType : String) (entry : DelEntry)

/-- The node state and external collaborators threaded through the
pipeline: the identity of this node, the configured hash spec and signing
key, `encoding/json` and the gob/byte codecs, the entry-def lookup, the
ribosome (application validation), the package machinery and the
validation back-channel of the transport.  Each field is the narrow
interface `action.go` consumes. -/
structure Env where
  nodeID : PeerID
  nodeIDStr : String
  hashEntry : String → Hash
  hashHeader : Header → Hash
  sign : Hash → String
  newHash : String → Except HCErr Hash
  byteEncode : DelEntry → String
  byteDecodeDel : String → Except HCErr DelEntry
  marshal : GobEntry → Except HCErr String
  gobUnmarshal : String → Except HCErr GobEntry
  jsonUnmarshalAny : String → Except HCErr String
  jsonUnmarshalLinkMaps : String → Except HCErr (List (List (String × String)))
  jsonUnmarshalLinksEntry : String → Except HCErr LinksEntry
  getEntryDef : String → Except HCErr EntryDef
  makeVPkg : Option Package → Except HCErr VPkg
  makeRibosome : String → Except HCErr Unit
  appValidate : VAct → EntryDef → VPkg → List String → Except HCErr Unit
  validatePackagingReq : VAct → EntryDef → Except HCErr PackagingReq
  makePackage : PackagingReq → Except HCErr Package
  pullValidate : PeerID → MsgType → Hash → Except HCErr ValidateResponse
  now : Nat

/-- The entry-type of an action (`EntryType()`). -/
def CAct.entryType : CAct → String
  | .commitA et _ => et
  | .modA et _ _ => et
  | .delA et _ => et

/-- The entry of a committing action (`Entry()`); `ActionDel` encodes its
`DelEntry` with `ByteEncoder` into a `GobEntry`. -/
def CAct.entryOf (env : Env) : CAct → GobEntry
  | .commitA _ e => e
  | .modA _ e _ => e
  | .delA _ de => { C := env.byteEncode de }

/-- The validating-action view of a committing action. -/
def CAct.toVAct : CAct → VAct
  | .commitA et e => .commitA et e
  | .modA et e r => .modA et e r
  | .delA et de => .delA et de

/-! ### System validation (`sysValidateEntry`) and the validation driver -/

/-- The per-link loop of `sysValidateEntry` for a `Links` entry: each item
must carry a `Base` that parses as a hash, a `Link` that parses as a hash,
and a `Tag`. -/
def checkLinksList (env : Env) : List (List (String × String)) → Except HCErr Unit
  | [] => .ok ()
  | lk :: rest =>
    match lk.lookup "Base" with
    | none => .error (.msg "invalid links entry: missing Base")
    | some hb =>
      match env.newHash hb with
      | .error e => .error (.msg ("invalid links entry: Base " ++ e.render))
      | .ok _ =>
        match lk.lookup "Link" with
        | none => .error (.msg "invalid links entry: missing Link")
        | some hl =>
          match env.newHash hl with
          | .error e => .error (.msg ("invalid links entry: Link " ++ e.render))
          | .ok _ =>
            match lk.lookup "Tag" with
            | none => .error (.msg "invalid links entry: missing Tag")
            | some _ => checkLinksList env rest

/-- Go `sysValidateEntry(h, d, entry)`: a nil entry is invalid; if the def
has a schema validator the input is parsed per `DataFormat` (JSON is
unmarshalled, anything else is handed over opaquely) and validated;
otherwise, if `DataFormat = Links`, the payload must decode as a non-empty
links list whose items pass `checkLinksList`. -/
def sysValidateEntry (env : Env) (d : EntryDef) (entry : Option GobEntry) : Except HCErr Unit :=
  match entry with
  | none => .error (.msg "nil entry invalid")
  | some e =>
    match d.validator with
    | some v =>
      match (if d.DataFormat = DataFormat.json
             then (env.jsonUnmarshalAny e.C).map SVInput.jsonV
             else .ok (SVInput.entryV e)) with
      | .error err => .error err
      | .ok input => v input
    | none =>
      if d.DataFormat = DataFormat.links then
        match env.jsonUnmarshalLinkMaps e.C with
        | .error err => .error (.msg ("invalid links entry, invalid json: " ++ err.render))
        | .ok l =>
          if l.isEmpty then
            .error (.msg "invalid links entry: you must specify at least one link")
          else checkLinksList env l
      else .ok ()

/-- A single decoded link item is well-formed: it has a `Base` field that
parses as a hash, a `Link` field that parses as a hash, and a `Tag` field. -/
def goodLinkB (env : Env) (lk : List (String × String)) : Bool :=
  match lk.lookup "Base" with
  | none => false
  | some hb =>
    match env.newHash hb with
    | .error _ => false
    | .ok _ =>
      match lk.lookup "Link" with
      | none => false
      | some hl =>
        match env.newHash hl with
        | .error _ => false
        | .ok _ => (lk.lookup "Tag").isSome

/-- The links loop succeeds exactly when every decoded item is well-formed. -/
theorem checkLinksList_ok_iff (env : Env) (l : List (List (String × String))) :
    checkLinksList env l = Except.ok () ↔ l.all (goodLinkB env) = true := by
  induction l with
  | nil => simp [checkLinksList]
  | cons lk rest ih =>
    simp only [checkLinksList, List.all_cons, Bool.and_eq_true]
    cases hb : lk.lookup "Base" with
    | none => simp [goodLinkB, hb]
    | some b =>
      cases hnb : env.newHash b with
      | error e => simp [goodLinkB, hb, hnb]
      | ok bh =>
        cases hl : lk.lookup "Link" with
        | none => simp [goodLinkB, hb, hnb, hl]
        | some bl =>
          cases hnl : env.newHash bl with
          | error e2 => simp [goodLinkB, hb, hnb, hl, hnl]
          | ok blh =>
            cases ht : lk.lookup "Tag" with
            | none => simp [goodLinkB, hb, hnb, hl, hnl, ht]
            | some tg => simp [goodLinkB, hb, hnb, hl, hnl, ht, ih]

/-- Go `prepareSources`: peer IDs are B58-encoded for the ribosome (the
encoding is the identity of our textual `PeerID`). -/
def prepareSources (sources : List PeerID) : List String :=
  sources.map (fun s => s)

/-- The action-specific system-level validation (`SysValidation` of each
action variant in `action.go`).  `ActionMod` refuses to mod a `Links`
entry, requires the replaced header to exist in the local chain and to
have the same type; `ActionDel` does the same for the deleted hash;
`ActionLink`'s system validation is empty. -/
def SysValidation (env : Env) (chain : Chain) (a : VAct) (d : EntryDef)
    (_sources : List PeerID) : Except HCErr Unit :=
  match a with
  | .commitA _ e => sysValidateEntry env d (some e)
  | .putA _ e => sysValidateEntry env d (some e)
  | .modA et e replaces =>
    if d.DataFormat = DataFormat.links then .error (.msg "Can't mod Links entry")
    else
      match chain.GetEntryHeader replaces with
      | .error err => .error err
      | .ok header =>
        if header.Typ ≠ et then .error .entryTypeMismatch
        else sysValidateEntry env d (some e)
  | .delA et de =>
    if d.DataFormat = DataFormat.links then .error (.msg "Can't del Links entry")
    else
      match chain.GetEntryHeader de.Hash with
      | .error err => .error err
      | .ok header =>
        if header.Typ ≠ et then .error .entryTypeMismatch
        else .ok ()
  | .linkA _ _ _ => .ok ()

/-- Go `CheckValidationRequest`: only `ActionLink` constrains the def (its
`DataFormat` must be `Links`). -/
def CheckValidationRequest (a : VAct) (d : EntryDef) : Except HCErr Unit :=
  match a with
  | .linkA _ _ _ =>
    if d.DataFormat ≠ DataFormat.links then .error (.msg "hash not of a linking entry")
    else .ok ()
  | _ => .ok ()

/-- Go `h.ValidateAction(a, entryType, pkg, sources)`: system entry types
(DNA, key, agent) validate trivially with no def; for application types the
def is looked up, a validation package assembled, the action's system
validation run, and the zome's ribosome asked for app-level validation.
The result is the effective `EntryDef` (none for system types). -/
def ValidateAction (env : Env) (chain : Chain) (a : VAct) (entryType : String)
    (pkg : Option Package) (sources : List PeerID) : Except HCErr (Option EntryDef) :=
  if entryType = DNAEntryType ∨ entryType = KeyEntryType ∨ entryType = AgentEntryType then
    .ok none
  else
    match env.getEntryDef entryType with
    | .error e => .error e
    | .ok d =>
      match env.makeVPkg pkg with
      | .error e => .error e
      | .ok vpkg =>
        match SysValidation env chain a d sources with
        | .error e => .error e
        | .ok _ =>
          match env.makeRibosome entryType with
          | .error e => .error e
          | .ok _ =>
            match env.appValidate a d vpkg (prepareSources sources) with
            | .error e => .error e
            | .ok _ => .ok (some d)

/-! ### doCommit (`action.go` lines 497-521) -/

/-- Modelled from the spec: `chain.PrepareHeader` (the chain component is
outside the surveyed files) computes the entry hash under the configured
hash spec, links to the previous header and the previous header of the
same type, signs the header, and returns the insertion index, the header
hash and the header — without mutating the chain. -/
def Chain.PrepareHeader (c : Chain) (env : Env) (now : Nat) (entryType : String)
    (entry : GobEntry) (change : Option StatusChange) : Nat × Hash × Header :=
  let entryHash := env.hashEntry entry.C
  let header : Header :=
    { Time := now, Typ := entryType, EntryLink := entryHash,
      HeaderLink := (c.items.getLast?).map (fun it => it.headerHash),
      TypeLink := ((c.items.filter (fun it => it.header.Typ = entryType)).getLast?).map
        (fun it => it.headerHash),
      Change := change,
      Sig := env.sign entryHash }
  (c.items.length, env.hashHeader header, header)

/-- Modelled from the spec: `chain.addEntry` asserts that the provided
index equals the current chain length and that the header hash matches a
recomputation, and refuses a duplicate header hash; otherwise it appends. -/
def Chain.addEntry (c : Chain) (env : Env) (l : Nat) (hash : Hash) (header : Header)
    (entry : GobEntry) : Except HCErr Chain :=
  if l = c.items.length ∧ hash = env.hashHeader header ∧
      c.items.all (fun it => it.headerHash ≠ hash) then
    .ok { items := c.items ++ [{ headerHash := hash, header := header, entry := entry }] }
  else .error (.msg "chain add failed")

/-- Go `h.doCommit(a, change)`: prepare the header, run `ValidateAction`
with the node itself as the sole source, rewrite a `ValidationFailedErr`
into `Invalid entry: <content>`, then add the entry to the chain and
return `(def, header, entryHash)`.  The resulting chain is returned
explicitly (the Go method mutates `h.chain`). -/
def doCommit (env : Env) (chain : Chain) (a : CAct) (change : Option StatusChange) :
    Except HCErr (Option EntryDef × Header × Hash) × Chain :=
  let entryType := a.entryType
  let entry := a.entryOf env
  let p := chain.PrepareHeader env env.now entryType entry change
  match ValidateAction env chain a.toVAct entryType none [env.nodeID] with
  | .error e =>
    (.error (if e = HCErr.validationFailed
             then .msg ("Invalid entry: " ++ entry.C) else e), chain)
  | .ok d =>
    match chain.addEntry env p.1 p.2.1 p.2.2 entry with
    | .error e => (.error e, chain)
    | .ok chain2 => (.ok (d, p.2.2, p.2.2.EntryLink), chain2)

/-! ### Concrete instantiations used by witnesses and counterexamples -/

/-- A concrete environment: a toy hash spec, a JSON decoder that rejects
everything (individual witnesses override the decoder fields they need),
an entry-def lookup that knows no types, and a ribosome that accepts
everything. -/
def baseEnv : Env :=
  { nodeID := "QmSelf"
    nodeIDStr := "QmSelf"
    hashEntry := fun s => "EH" ++ s
    hashHeader := fun hd => "HH" ++ hd.EntryLink
    sign := fun h => "sig" ++ h
    newHash := fun s => if s = "" then .error (.msg "invalid hash") else .ok s
    byteEncode := fun de => de.Hash ++ "|" ++ de.Message
    byteDecodeDel := fun _ => .error (.msg "undecodable")
    marshal := fun e => .ok e.C
    gobUnmarshal := fun s => .ok { C := s }
    jsonUnmarshalAny := fun s => .ok s
    jsonUnmarshalLinkMaps := fun _ => .error (.msg "invalid json")
    jsonUnmarshalLinksEntry := fun _ => .error (.msg "invalid json")
    getEntryDef := fun _ => .error (.msg "no definition for entry type")
    makeVPkg := fun _ => .ok ""
    makeRibosome := fun _ => .ok ()
    appValidate := fun _ _ _ _ => .ok ()
    validatePackagingReq := fun _ _ => .ok ""
    makePackage := fun _ => .ok ""
    pullValidate := fun _ _ _ => .error (.msg "no transport")
    now := 0 }

/-- A plain string entry type definition with no schema validator. -/
def postDef : EntryDef :=
  { Name := "post", DataFormat := DataFormat.str, Sharing := Sharing.public, validator := none }

/-- A links entry type definition with no schema validator. -/
def ratingDef : EntryDef :=
  { Name := "rating", DataFormat := DataFormat.links, Sharing := Sharing.public,
    validator := none }

/-- A (type-level legal) def that has both `DataFormat = Links` and a
schema validator accepting every input. -/
def linksWithValidatorDef : EntryDef :=
  { Name := "weird", DataFormat := DataFormat.links, Sharing := Sharing.public,
    validator := some (fun _ => .ok ()) }

/-- C5 counterexample: with a schema validator present the `Links`
structural checks of `sysValidateEntry` never run (they live in the
`else` branch of `if d.validator != nil`), so a links-format entry whose
payload is not even JSON is accepted, where the claim demands a typed
error. -/
theorem C5_counterexample_validator_skips_links_check :
    sysValidateEntry baseEnv linksWithValidatorDef (some { C := "x" }) = .ok ()
    ∧ baseEnv.jsonUnmarshalLinkMaps "x" = .error (.msg "invalid json") :=
  ⟨rfl, rfl⟩

/-- C5 (amended): `sysValidateEntry` rejects a nil entry for every def;
when the def has a schema validator the input is parsed per `DataFormat`
(JSON unmarshalled to a structured value, otherwise the opaque entry) and
checked by the validator; and when `DataFormat = Links` **and the def has
no schema validator**, the payload must parse as JSON containing a
non-empty links list whose every element has a `Base` parsing as a hash, a
`Link` parsing as a hash, and a `Tag` — otherwise a typed error is
returned. -/
theorem C5_sysValidateEntry_rules (env : Env) :
    (∀ d : EntryDef, sysValidateEntry env d none = .error (.msg "nil entry invalid"))
    ∧ (∀ (d : EntryDef) (v : SVInput → Except HCErr Unit) (e : GobEntry),
        d.validator = some v →
        sysValidateEntry env d (some e) =
          (if d.DataFormat = DataFormat.json
           then (env.jsonUnmarshalAny e.C).map SVInput.jsonV
           else .ok (SVInput.entryV e)).bind v)
    ∧ (∀ (d : EntryDef) (e : GobEntry), d.validator = none →
        d.DataFormat = DataFormat.links →
        (sysValidateEntry env d (some e) = .ok () ↔
          ∃ l, env.jsonUnmarshalLinkMaps e.C = .ok l ∧ l ≠ [] ∧
            l.all (goodLinkB env) = true)) := by
  refine ⟨fun d => rfl, ?_, ?_⟩
  · intro d v e hv
    simp only [sysValidateEntry, hv]
    cases hi : (if d.DataFormat = DataFormat.json
                then (env.jsonUnmarshalAny e.C).map SVInput.jsonV
                else .ok (SVInput.entryV e)) with
    | error err => simp [Except.bind]
    | ok input => simp [Except.bind]
  · intro d e hv hdf
    simp only [sysValidateEntry, hv, hdf, if_pos]
    cases hp : env.jsonUnmarshalLinkMaps e.C with
    | error err => simp [hp]
    | ok l =>
      by_cases hl : l.isEmpty
      · simp [hp, hl, List.isEmpty_iff.mp hl]
      · have hne : l ≠ [] := by
          intro h
          exact hl (by simp [h])
        simp [hp, hl, hne, checkLinksList_ok_iff]

/-- An environment whose links decoder yields one well-formed link item. -/
def goodLinksEnv : Env :=
  { baseEnv with
    jsonUnmarshalLinkMaps :=
      fun _ => .ok [[("Base", "b1"), ("Link", "l1"), ("Tag", "likes")]] }

/-- C5 amended-claim witness at concrete inputs: a nil entry is rejected,
a validator-carrying def validates its input, and a validator-free links
def accepts a well-formed links payload. -/
theorem C5_sysValidateEntry_rules_witness :
    sysValidateEntry baseEnv postDef none = .error (.msg "nil entry invalid")
    ∧ sysValidateEntry baseEnv linksWithValidatorDef (some { C := "anything" }) = .ok ()
    ∧ sysValidateEntry goodLinksEnv ratingDef (some { C := "goodlinks" }) = .ok () := by
  refine ⟨(C5_sysValidateEntry_rules baseEnv).1 postDef, ?_, ?_⟩
  · rw [(C5_sysValidateEntry_rules baseEnv).2.1 linksWithValidatorDef _ { C := "anything" } rfl]
    rfl
  · rw [((C5_sysValidateEntry_rules goodLinksEnv).2.2 ratingDef { C := "goodlinks" } rfl rfl)]
    exact ⟨[[("Base", "b1"), ("Link", "l1"), ("Tag", "likes")]], rfl, by decide, by decide⟩

/-! ### C1: the validation gate of doCommit -/

/-- C1: for every committing action, when local validation (run with the
node itself as the sole source) fails, `doCommit` leaves the chain
unchanged and returns the validation error — rewritten to
`Invalid entry: <content>` exactly when the failure is the
`ValidationFailedErr` sentinel. -/
theorem C1_doCommit_validation_gate (env : Env) (chain : Chain) (a : CAct)
    (change : Option StatusChange) (e : HCErr)
    (h : ValidateAction env chain a.toVAct a.entryType none [env.nodeID] = .error e) :
    doCommit env chain a change =
      (.error (if e = HCErr.validationFailed
               then .msg ("Invalid entry: " ++ (a.entryOf env).C) else e), chain) := by
  simp only [doCommit, h]

/-- An environment whose ribosome rejects everything with the
`ValidationFailedErr` sentinel and which knows the `post` entry type. -/
def rejectEnv : Env :=
  { baseEnv with
    getEntryDef := fun t => if t = "post" then .ok postDef
                            else .error (.msg "no definition for entry type")
    appValidate := fun _ _ _ _ => .error HCErr.validationFailed }

/-- C1 witness: committing a `post` entry `badger` under the rejecting
ribosome fails with exactly `Invalid entry: badger` and the chain stays
empty. -/
theorem C1_doCommit_validation_gate_witness :
    doCommit rejectEnv { items := [] } (CAct.commitA "post" { C := "badger" }) none =
      (.error (.msg "Invalid entry: badger"), { items := [] }) := by
  have h := C1_doCommit_validation_gate rejectEnv { items := [] }
    (CAct.commitA "post" { C := "badger" }) none HCErr.validationFailed rfl
  simpa using h

/-! ### C2: ActionCommit.Do (`action.go` lines 553-586) -/

/-- A DHT message emitted by an initiating action (`h.dht.Send` calls):
either a `LINK_REQUEST` with `LinkReq{Base, Links}` or a `PUT_REQUEST`
with `PutReq{H}`. -/
inductive DMsg where
  | linkReq (base : Hash) (links : Hash)
  | putReq (h : Hash)
deriving DecidableEq, Repr

/-- The outcome of an initiating `Do`: a value, an error, or a Go panic. -/
inductive HOut (α : Type) where
  | ok (a : α)
  | err (e : HCErr)
  | panicked (s : String)
deriving DecidableEq, Repr

/-- The hash value Go's `b, _ := NewHash(l.Base)` leaves in `b`: the parsed
hash, or the zero hash when the discarded error is set. -/
def hashOrZero (r : Except HCErr Hash) : Hash :=
  match r with
  | .ok h => h
  | .error _ => ""

/-- The link fan-out loop of `ActionCommit.Do`: one `LINK_REQUEST` per base
not yet in the `bases` set (`seen`), in iteration order. -/
def linkMsgsAux (env : Env) (entryHash : Hash) : List Link → List String → List DMsg
  | [], _ => []
  | l :: rest, seen =>
    if l.Base ∈ seen then linkMsgsAux env entryHash rest seen
    else
      DMsg.linkReq (hashOrZero (env.newHash l.Base)) entryHash ::
        linkMsgsAux env entryHash rest (l.Base :: seen)

/-- The bases the loop actually sends for: first occurrences of bases not
in `seen`. -/
def dedupNewBases : List Link → List String → List String
  | [], _ => []
  | l :: rest, seen =>
    if l.Base ∈ seen then dedupNewBases rest seen
    else l.Base :: dedupNewBases rest (l.Base :: seen)

/-- The fan-out loop sends exactly one `LINK_REQUEST` per newly seen base,
in first-occurrence order, each referencing the links-entry hash. -/
theorem linkMsgsAux_eq_map (env : Env) (eh : Hash) (ls : List Link) (seen : List String) :
    linkMsgsAux env eh ls seen =
      (dedupNewBases ls seen).map (fun s => DMsg.linkReq (hashOrZero (env.newHash s)) eh) := by
  induction ls generalizing seen with
  | nil => simp [linkMsgsAux, dedupNewBases]
  | cons l rest ih =>
    by_cases h : l.Base ∈ seen
    · simp [linkMsgsAux, dedupNewBases, h, ih]
    · simp [linkMsgsAux, dedupNewBases, h, ih]

/-- Each base that occurs among the links and is not already seen appears
exactly once among the sent bases; every other base appears zero times. -/
theorem count_dedupNewBases (ls : List Link) (seen : List String) (b : String) :
    List.count b (dedupNewBases ls seen) =
      if b ∈ ls.map Link.Base ∧ b ∉ seen then 1 else 0 := by
  induction ls generalizing seen with
  | nil => simp [dedupNewBases]
  | cons l rest ih =>
    simp only [dedupNewBases, List.map_cons, List.mem_cons]
    by_cases h : l.Base ∈ seen
    · rw [if_pos h, ih]
      by_cases hb : b = l.Base
      · subst hb
        simp [h]
      · simp [hb]
    · rw [if_neg h, List.count_cons, ih]
      by_cases hb : b = l.Base
      · subst hb
        simp [h, List.mem_cons]
      · simp [hb, List.mem_cons, Ne.symm hb]

/-- Go `ActionCommit.Do`: run `doCommit`; for a `Links`-format def decode
the links entry and emit one `LINK_REQUEST` per distinct base; otherwise
emit a `PUT_REQUEST` when the def's sharing is public; answer the entry
hash.  A system entry type leaves `doCommit`'s def nil and Go would
dereference it (`d.DataFormat`), modelled as a panic.  The emitted
messages are returned explicitly (`h.dht.Send` effects); `Send` transport
errors are outside the model. -/
def ActionCommitDo (env : Env) (chain : Chain) (entryType : String) (entry : GobEntry) :
    HOut Hash × Chain × List DMsg :=
  match doCommit env chain (CAct.commitA entryType entry) none with
  | (.error e, chain2) => (.err e, chain2, [])
  | (.ok (dOpt, _header, entryHash), chain2) =>
    match dOpt with
    | none => (.panicked "nil EntryDef dereference", chain2, [])
    | some d =>
      if d.DataFormat = DataFormat.links then
        match env.jsonUnmarshalLinksEntry entry.C with
        | .error e => (.err e, chain2, [])
        | .ok le => (.ok entryHash, chain2, linkMsgsAux env entryHash le.Links [])
      else if d.Sharing = Sharing.public then
        (.ok entryHash, chain2, [DMsg.putReq entryHash])
      else
        (.ok entryHash, chain2, [])

/-- C2: after a successful `doCommit`, a links-format commit sends exactly
one `LINK_REQUEST` per distinct base among the entry's links (each
referencing the links-entry hash), a non-links public commit sends exactly
one `PUT_REQUEST` for the entry hash, a non-links private commit sends
nothing, and every successful case returns the entry hash. -/
theorem C2_commit_messages (env : Env) (chain : Chain) (entryType : String)
    (entry : GobEntry) (d : EntryDef) (header : Header) (entryHash : Hash) (chain2 : Chain)
    (hdo : doCommit env chain (CAct.commitA entryType entry) none =
      (.ok (some d, header, entryHash), chain2)) :
    (∀ le : LinksEntry, d.DataFormat = DataFormat.links →
      env.jsonUnmarshalLinksEntry entry.C = .ok le →
      ActionCommitDo env chain entryType entry =
        (.ok entryHash, chain2,
          (dedupNewBases le.Links []).map
            (fun s => DMsg.linkReq (hashOrZero (env.newHash s)) entryHash))
      ∧ ∀ b : String,
          List.count b (dedupNewBases le.Links []) =
            if b ∈ le.Links.map Link.Base then 1 else 0)
    ∧ (d.DataFormat ≠ DataFormat.links → d.Sharing = Sharing.public →
        ActionCommitDo env chain entryType entry =
          (.ok entryHash, chain2, [DMsg.putReq entryHash]))
    ∧ (d.DataFormat ≠ DataFormat.links → d.Sharing ≠ Sharing.public →
        ActionCommitDo env chain entryType entry = (.ok entryHash, chain2, [])) := by
  refine ⟨?_, ?_, ?_⟩
  · intro le hdf hle
    constructor
    · simp [ActionCommitDo, hdo, hdf, hle, linkMsgsAux_eq_map]
    · intro b
      rw [count_dedupNewBases]
      simp
  · intro hdf hsh
    simp [ActionCommitDo, hdo, hdf, hsh]
  · intro hdf hsh
    simp [ActionCommitDo, hdo, hdf, hsh]

/-- A concrete links entry with two links sharing base `b1` and one on `b2`. -/
def twoLinksEntry : LinksEntry :=
  { Links :=
      [ { Base := "b1", Link := "l1", Tag := "t", LinkAction := "" },
        { Base := "b1", Link := "l2", Tag := "t", LinkAction := "" },
        { Base := "b2", Link := "l3", Tag := "t", LinkAction := "" } ] }

/-- An environment that knows the `rating` links type and decodes the
payload `twolinks` into `twoLinksEntry`. -/
def commitEnv : Env :=
  { baseEnv with
    getEntryDef := fun t =>
      if t = "rating" then .ok ratingDef
      else if t = "post" then .ok postDef
      else .error (.msg "no definition for entry type")
    jsonUnmarshalLinksEntry := fun s =>
      if s = "twolinks" then .ok twoLinksEntry else .error (.msg "invalid json")
    jsonUnmarshalLinkMaps := fun s =>
      if s = "twolinks" then
        .ok [[("Base", "b1"), ("Link", "l1"), ("Tag", "t")],
             [("Base", "b1"), ("Link", "l2"), ("Tag", "t")],
             [("Base", "b2"), ("Link", "l3"), ("Tag", "t")]]
      else .error (.msg "invalid json") }

/-- The header `doCommit` produces for the witness commit. -/
def hdrAfterCommit : Header :=
  { Time := 0, Typ := "rating", EntryLink := "EHtwolinks", HeaderLink := none,
    TypeLink := none, Change := none, Sig := "sigEHtwolinks" }

/-- The chain after the witness commit. -/
def chainAfterCommit : Chain :=
  { items := [{ headerHash := "HHEHtwolinks", header := hdrAfterCommit,
                entry := { C := "twolinks" } }] }

/-- C2 witness: committing the `twolinks` rating entry appends to the
chain, sends exactly one `LINK_REQUEST` for `b1` and one for `b2`
(although two links share `b1`), and returns the entry hash. -/
theorem C2_commit_messages_witness :
    ActionCommitDo commitEnv { items := [] } "rating" { C := "twolinks" } =
      (HOut.ok "EHtwolinks", chainAfterCommit,
        [DMsg.linkReq "b1" "EHtwolinks", DMsg.linkReq "b2" "EHtwolinks"])
    ∧ List.count "b1" (dedupNewBases twoLinksEntry.Links []) = 1
    ∧ List.count "b9" (dedupNewBases twoLinksEntry.Links []) = 0 := by
  have h := (C2_commit_messages commitEnv { items := [] } "rating" { C := "twolinks" }
      ratingDef hdrAfterCommit "EHtwolinks" chainAfterCommit rfl).1 twoLinksEntry rfl rfl
  refine ⟨?_, ?_, ?_⟩
  · rw [h.1]
    decide
  · rw [h.2 "b1"]
    decide
  · rw [h.2 "b9"]
    decide

/-! ### DHT store model (spec §3, §4.6, §6; the store itself lives in the
DHT component outside the surveyed files) -/

/-- Status bit: a live record. -/
def StatusLive : Nat := 1

/-- Status bit: a rejected record. -/
def StatusRejected : Nat := 2

/-- Status bit: a deleted record. -/
def StatusDeleted : Nat := 4

/-- Status bit: a modified record. -/
def StatusModified : Nat := 8

/-- Status mask matching any status. -/
def StatusAny : Nat := 255

/-- Modelled from the spec: `StatusDefault = Live` (§6). -/
def StatusDefault : Nat := StatusLive

/-- Get mask: default (resolves to `Entry` on the receive side). -/
def GetMaskDefault : Nat := 0

/-- Get mask bit: return the entry. -/
def GetMaskEntry : Nat := 1

/-- Get mask bit: return the entry type. -/
def GetMaskEntryType : Nat := 2

/-- Get mask bit: return the sources. -/
def GetMaskSources : Nat := 4

/-- One record of the DHT store: `{Type, Bytes, Sources, Status, FollowHash}`. -/
structure DhtRecord where
  typ : String
  bytes : String
  sources : List PeerID
  status : Nat
  followHash : Option Hash
deriving DecidableEq, Repr

/-- One item of the link meta index under a base. -/
structure LinkMetaItem where
  link : String
  tag : String
  src : PeerID
  status : Nat
deriving DecidableEq, Repr

/-- The local DHT store: hash → record, plus the base → links index. -/
structure DhtState where
  store : List (Hash × DhtRecord)
  linkIdx : List (String × LinkMetaItem)
deriving DecidableEq, Repr

/-- Insert or overwrite the record stored under a key. -/
def setRecord : List (Hash × DhtRecord) → Hash → DhtRecord → List (Hash × DhtRecord)
  | [], h, r => [(h, r)]
  | (k, v) :: rest, h, r =>
    if k = h then (k, r) :: rest else (k, v) :: setRecord rest h r

/-- Modelled from the spec: `dht.exists(hash, statusMask)` checks that the
hash is present with a status matching the mask; an absent (or masked-out)
hash is the `ErrHashNotFound` sentinel. -/
def dhtExists (s : DhtState) (hash : Hash) (statusMask : Nat) : Option HCErr :=
  match s.store.lookup hash with
  | none => some HCErr.hashNotFound
  | some r => if statusMask &&& r.status ≠ 0 then none else some HCErr.hashNotFound

/-- Modelled from the spec: `dht.put(msg, entryType, key, src, value,
status)` persists the record under the key with the given status; on a
repeated put the sources set grows (§3: "sources set grows"). -/
def dhtPut (s : DhtState) (entryType : String) (key : Hash) (src : PeerID)
    (value : String) (status : Nat) : DhtState :=
  match s.store.lookup key with
  | none =>
    let rec0 : DhtRecord :=
      { typ := entryType, bytes := value, sources := [src], status := status,
        followHash := none }
    { s with store := setRecord s.store key rec0 }
  | some r =>
    let rec0 : DhtRecord :=
      { typ := entryType, bytes := value, sources := r.sources ++ [src], status := status,
        followHash := r.followHash }
    { s with store := setRecord s.store key rec0 }

/-- Modelled from the spec: `dht.mod(msg, oldHash, newHash)` transitions
the old record to `Modified` with `FollowHash = newHash` (§4.5). -/
def dhtMod (s : DhtState) (oldHash newHash : Hash) : DhtState :=
  match s.store.lookup oldHash with
  | none => s
  | some r =>
    let rec0 : DhtRecord := { r with status := StatusModified, followHash := some newHash }
    { s with store := setRecord s.store oldHash rec0 }

/-- Modelled from the spec: `dht.del(msg, hash)` transitions the record to
`Deleted` (§4.5). -/
def dhtDel (s : DhtState) (hash : Hash) : DhtState :=
  match s.store.lookup hash with
  | none => s
  | some r =>
    let rec0 : DhtRecord := { r with status := StatusDeleted }
    { s with store := setRecord s.store hash rec0 }

/-- Body of a `PUT_REQUEST` (Go `PutReq`). -/
structure PutReq where
  H : Hash
deriving DecidableEq, Repr

/-- Body of a `MOD_REQUEST` (Go `ModReq{H: old, N: new}`). -/
structure ModReq where
  H : Hash
  N : Hash
deriving DecidableEq, Repr

/-- Body of a `DEL_REQUEST` (Go `DelReq{H: target, By: delEntryHash}`). -/
structure DelReq where
  H : Hash
  By : Hash
deriving DecidableEq, Repr

/-- Body of a `LINK_REQUEST` (Go `LinkReq{Base, Links}`). -/
structure LinkReq where
  Base : Hash
  Links : Hash
deriving DecidableEq, Repr

/-- Body of a `GET_REQUEST` (Go `GetReq{H, StatusMask, GetMask}`). -/
structure GetReq where
  H : Hash
  StatusMask : Nat
  GetMask : Nat
deriving DecidableEq, Repr

/-- Modelled from the spec: `dht.putLink(msg, base, link, tag)` adds a
live link item under the base. -/
def dhtPutLink (s : DhtState) (msg : Message LinkReq) (base link tag : String) : DhtState :=
  { s with linkIdx := s.linkIdx ++
      [(base, { link := link, tag := tag, src := msg.From, status := StatusLive })] }

/-- Modelled from the spec: `dht.delLink(msg, base, link, tag)` marks the
matching link items deleted. -/
def dhtDelLink (s : DhtState) (_msg : Message LinkReq) (base link tag : String) : DhtState :=
  { s with linkIdx := s.linkIdx.map (fun p =>
      if p.1 = base ∧ p.2.link = link ∧ p.2.tag = tag then
        (p.1, { p.2 with status := StatusDeleted })
      else p) }

/-- The outcome of a `Receive` handler: the `(response, err)` pair the Go
handler returns (each may independently be set), or a Go `panic`. -/
inductive RcvOut (ρ : Type) where
  | ret (response : Option ρ) (err : Option HCErr)
  | panicked (s : String)
deriving DecidableEq, Repr

/-- Whether an outcome is a panic. -/
def RcvOut.isPanic {ρ : Type} : RcvOut ρ → Bool
  | .panicked _ => true
  | _ => false

/-- Go `RunValidationPhase(h, source, msgType, query, handler)`: pull a
`ValidateResponse` justifying `query` from `source` over the validation
protocol (a reply of unexpected shape is folded into the error); the
handler is inlined at each call site below. -/
def RunValidationPhase (env : Env) (source : PeerID) (msgType : MsgType) (query : Hash) :
    Except HCErr ValidateResponse :=
  env.pullValidate source msgType query

/-- Go `ActionPut.Receive`: pull the validation response for the put hash,
reconstruct a `put` action, validate it with the sender as sole source;
persist via `dht.put` with status `Rejected` on validation failure and
`Live` on success; the reply is `"queued"` in every non-panicking path. -/
def ActionPutReceive (env : Env) (chain : Chain) (dht : DhtState) (msg : Message PutReq) :
    DhtState × RcvOut String :=
  let t := msg.Body
  match RunValidationPhase env msg.From MsgType.VALIDATE_PUT_REQUEST t.H with
  | .error e => (dht, .ret (some "queued") (some e))
  | .ok resp =>
    let a := VAct.putA resp.Typ resp.Entry
    let vres := ValidateAction env chain a resp.Typ (some resp.Package) [msg.From]
    let status := match vres with
      | .error _ => StatusRejected
      | .ok _ => StatusLive
    match env.marshal resp.Entry with
    | .error e => (dht, .ret (some "queued") (some e))
    | .ok b => (dhtPut dht resp.Typ t.H msg.From b status, .ret (some "queued") none)

/-- Go `ActionMod.Receive`: require the target hash to exist locally
(panicking on the unimplemented retry path), pull the validation response
for the new hash, reconstruct a `mod` action and validate it; on success
`dht.mod(msg, old, new)`; on failure nothing is persisted (storing as
rejected is an open TODO in the source). -/
def ActionModReceive (env : Env) (chain : Chain) (dht : DhtState) (msg : Message ModReq) :
    DhtState × RcvOut String :=
  let t := msg.Body
  match dhtExists dht t.H StatusDefault with
  | some e =>
    if e = HCErr.hashNotFound then (dht, .panicked "RETRY-MOD NOT IMPLEMENTED")
    else (dht, .ret none (some e))
  | none =>
    match RunValidationPhase env msg.From MsgType.VALIDATE_MOD_REQUEST t.N with
    | .error e => (dht, .ret (some "queued") (some e))
    | .ok resp =>
      let a := VAct.modA resp.Typ resp.Entry t.H
      match ValidateAction env chain a resp.Typ (some resp.Package) [msg.From] with
      | .error e => (dht, .ret (some "queued") (some e))
      | .ok _ => (dhtMod dht t.H t.N, .ret (some "queued") none)

/-- Go `ActionDel.Receive`: require the target hash to exist locally
(panicking on the unimplemented retry path), pull the deletion record,
decode its `DelEntry`, validate the reconstructed `del` action; on success
`dht.del(msg, delEntry.Hash)`; on failure nothing is persisted. -/
def ActionDelReceive (env : Env) (chain : Chain) (dht : DhtState) (msg : Message DelReq) :
    DhtState × RcvOut String :=
  let t := msg.Body
  match dhtExists dht t.H StatusDefault with
  | some e =>
    if e = HCErr.hashNotFound then (dht, .panicked "RETRY-DELETE NOT IMPLEMENTED")
    else (dht, .ret none (some e))
  | none =>
    match RunValidationPhase env msg.From MsgType.VALIDATE_DEL_REQUEST t.By with
    | .error e => (dht, .ret (some "queued") (some e))
    | .ok resp =>
      match env.byteDecodeDel resp.Entry.C with
      | .error e => (dht, .ret (some "queued") (some e))
      | .ok delEntry =>
        let a := VAct.delA resp.Typ delEntry
        match ValidateAction env chain a resp.Typ (some resp.Package) [msg.From] with
        | .error e => (dht, .ret (some "queued") (some e))
        | .ok _ => (dhtDel dht delEntry.Hash, .ret (some "queued") none)

/-- The per-link loop of `ActionLink.Receive`: links whose base equals the
message base are put or deleted in the link index per their `LinkAction`;
others are ignored. -/
def processLinks (msg : Message LinkReq) (base : String) : DhtState → List Link → DhtState
  | dht, [] => dht
  | dht, l :: rest =>
    processLinks msg base
      (if base = l.Base then
        if l.LinkAction = DelAction then dhtDelLink dht msg base l.Link l.Tag
        else dhtPutLink dht msg base l.Link l.Tag
      else dht) rest

/-- Go `ActionLink.Receive`: if the base is missing (or not live) the
handler logs and ignores the message, returning the `exists` error; the
panicking retry path sits behind a second, identical `exists` call and is
unreachable; otherwise the links entry is pulled, decoded and validated,
and on success each link matching the base is applied to the link index. -/
def ActionLinkReceive (env : Env) (chain : Chain) (dht : DhtState) (msg : Message LinkReq) :
    DhtState × RcvOut String :=
  let t := msg.Body
  let base := t.Base
  match dhtExists dht base StatusLive with
  | none =>
    match dhtExists dht t.Base StatusLive with
    | some e =>
      if e = HCErr.hashNotFound then (dht, .panicked "RETRY-LINK NOT IMPLEMENTED")
      else (dht, .ret none (some e))
    | none =>
      match RunValidationPhase env msg.From MsgType.VALIDATE_LINK_REQUEST t.Links with
      | .error e => (dht, .ret (some "queued") (some e))
      | .ok resp =>
        match env.jsonUnmarshalLinksEntry resp.Entry.C with
        | .error e => (dht, .ret (some "queued") (some e))
        | .ok le =>
          let a := VAct.linkA resp.Typ le.Links t.Base
          match ValidateAction env chain a resp.Typ (some resp.Package) [msg.From] with
          | .error e => (dht, .ret (some "queued") (some e))
          | .ok _ => (processLinks msg t.Base dht le.Links, .ret (some "queued") none)
  | some e => (dht, .ret none (some e))

/-! ### Store lemmas -/

/-- Setting a record makes it the one found under its key. -/
theorem lookup_setRecord (l : List (Hash × DhtRecord)) (h : Hash) (r : DhtRecord) :
    (setRecord l h r).lookup h = some r := by
  induction l with
  | nil => simp [setRecord]
  | cons p rest ih =>
    obtain ⟨k, v⟩ := p
    by_cases hk : k = h
    · simp [setRecord, hk]
    · have hbk : (h == k) = false := by simp [Ne.symm hk]
      simp [setRecord, hk, List.lookup, hbk, ih]

/-- After `dht.put`, the key holds a record with the given type, bytes and
status, and the source among its sources. -/
theorem dhtPut_lookup (s : DhtState) (et : String) (key : Hash) (src : PeerID)
    (v : String) (st : Nat) :
    ∃ rec : DhtRecord, (dhtPut s et key src v st).store.lookup key = some rec
      ∧ rec.typ = et ∧ rec.bytes = v ∧ rec.status = st ∧ src ∈ rec.sources := by
  unfold dhtPut
  cases h : s.store.lookup key with
  | none => exact ⟨_, lookup_setRecord _ _ _, rfl, rfl, rfl, by simp⟩
  | some r => exact ⟨_, lookup_setRecord _ _ _, rfl, rfl, rfl, by simp⟩

/-- After `dht.mod` on a present key, the record is `Modified` and follows
the new hash. -/
theorem dhtMod_lookup (s : DhtState) (oldHash newHash : Hash) (r : DhtRecord)
    (h : s.store.lookup oldHash = some r) :
    (dhtMod s oldHash newHash).store.lookup oldHash =
      some { r with status := StatusModified, followHash := some newHash } := by
  unfold dhtMod
  rw [h]
  exact lookup_setRecord _ _ _

/-- A passing `dht.exists` check means the key is present in the store. -/
theorem dhtExists_none_lookup (s : DhtState) (h : Hash) (m : Nat)
    (hex : dhtExists s h m = none) : ∃ r, s.store.lookup h = some r := by
  unfold dhtExists at hex
  cases hl : s.store.lookup h with
  | none => rw [hl] at hex; exact absurd hex (by simp)
  | some r => exact ⟨r, rfl⟩

/-! ### C3: ActionPut.Receive (`action.go` lines 714-739) -/

/-- C3: once the validation-phase pull succeeds (and the entry marshals),
the record is persisted via `dht.put` under the requested hash with status
`Rejected` exactly when `ValidateAction` (run with the sender as sole
source) fails and `Live` when it succeeds, and the reply is `"queued"`. -/
theorem C3_put_receive_persists (env : Env) (chain : Chain) (dht : DhtState)
    (msg : Message PutReq) (resp : ValidateResponse) (b : String)
    (hpull : env.pullValidate msg.From MsgType.VALIDATE_PUT_REQUEST msg.Body.H = .ok resp)
    (hmar : env.marshal resp.Entry = .ok b) :
    (∀ e, ValidateAction env chain (VAct.putA resp.Typ resp.Entry) resp.Typ
        (some resp.Package) [msg.From] = .error e →
      ActionPutReceive env chain dht msg =
        (dhtPut dht resp.Typ msg.Body.H msg.From b StatusRejected,
         .ret (some "queued") none)
      ∧ ∃ rec : DhtRecord,
          (ActionPutReceive env chain dht msg).1.store.lookup msg.Body.H = some rec
          ∧ rec.typ = resp.Typ ∧ rec.bytes = b ∧ rec.status = StatusRejected
          ∧ msg.From ∈ rec.sources)
    ∧ (∀ dOpt, ValidateAction env chain (VAct.putA resp.Typ resp.Entry) resp.Typ
        (some resp.Package) [msg.From] = .ok dOpt →
      ActionPutReceive env chain dht msg =
        (dhtPut dht resp.Typ msg.Body.H msg.From b StatusLive,
         .ret (some "queued") none)
      ∧ ∃ rec : DhtRecord,
          (ActionPutReceive env chain dht msg).1.store.lookup msg.Body.H = some rec
          ∧ rec.typ = resp.Typ ∧ rec.bytes = b ∧ rec.status = StatusLive
          ∧ msg.From ∈ rec.sources) := by
  constructor
  · intro e hv
    have heq : ActionPutReceive env chain dht msg =
        (dhtPut dht resp.Typ msg.Body.H msg.From b StatusRejected,
         .ret (some "queued") none) := by
      simp [ActionPutReceive, RunValidationPhase, hpull, hv, hmar]
    refine ⟨heq, ?_⟩
    rw [heq]
    exact dhtPut_lookup dht resp.Typ msg.Body.H msg.From b StatusRejected
  · intro dOpt hv
    have heq : ActionPutReceive env chain dht msg =
        (dhtPut dht resp.Typ msg.Body.H msg.From b StatusLive,
         .ret (some "queued") none) := by
      simp [ActionPutReceive, RunValidationPhase, hpull, hv, hmar]
    refine ⟨heq, ?_⟩
    rw [heq]
    exact dhtPut_lookup dht resp.Typ msg.Body.H msg.From b StatusLive

/-- The empty local DHT store. -/
def emptyDht : DhtState := { store := [], linkIdx := [] }

/-- The empty local chain. -/
def chain0 : Chain := { items := [] }

/-- The validation response pulled for the witness put. -/
def putResp : ValidateResponse :=
  { Typ := "post", Entry := { C := "hello" }, Header := zeroHeader, Package := "" }

/-- The witness `PUT_REQUEST`. -/
def putMsg : Message PutReq := { From := "QmPeer", Body := { H := "EHhello" } }

/-- An environment whose validation pull yields `putResp` and whose
ribosome accepts. -/
def putEnvOk : Env :=
  { commitEnv with pullValidate := fun _ _ _ => .ok putResp }

/-- Same but the ribosome rejects with the sentinel. -/
def putEnvRej : Env :=
  { putEnvOk with appValidate := fun _ _ _ _ => .error HCErr.validationFailed }

/-- C3 witness: an accepted put is stored `Live`, a rejected one
`Rejected`, with reply `"queued"` in both cases. -/
theorem C3_put_receive_persists_witness :
    ActionPutReceive putEnvOk chain0 emptyDht putMsg =
      (dhtPut emptyDht "post" "EHhello" "QmPeer" "hello" StatusLive,
       .ret (some "queued") none)
    ∧ ActionPutReceive putEnvRej chain0 emptyDht putMsg =
      (dhtPut emptyDht "post" "EHhello" "QmPeer" "hello" StatusRejected,
       .ret (some "queued") none) := by
  have h1 := ((C3_put_receive_persists putEnvOk chain0 emptyDht putMsg putResp "hello"
      rfl rfl).2 (some postDef) rfl).1
  have h2 := ((C3_put_receive_persists putEnvRej chain0 emptyDht putMsg putResp "hello"
      rfl rfl).1 HCErr.validationFailed rfl).1
  exact ⟨h1, h2⟩

/-! ### C4 and C9: ActionMod/Del/Link receive preconditions and outcomes -/

/-- C4 counterexample input: a live record at `h1`. -/
def dht1 : DhtState :=
  { store := [("h1", { typ := "post", bytes := "v1", sources := ["QmOwner"],
                       status := StatusLive, followHash := none })],
    linkIdx := [] }

/-- The validation response pulled for the witness mod. -/
def modResp : ValidateResponse :=
  { Typ := "post", Entry := { C := "v2" }, Header := zeroHeader, Package := "" }

/-- The witness `MOD_REQUEST`: replace `h1` by `EHv2`. -/
def modMsg : Message ModReq := { From := "QmPeer", Body := { H := "h1", N := "EHv2" } }

/-- An environment whose validation pull yields `modResp`. -/
def modEnvPull : Env :=
  { commitEnv with pullValidate := fun _ _ _ => .ok modResp }

/-- A receiver chain containing the replaced entry `h1` of type `post`
(so that `ActionMod.SysValidation`'s header lookup succeeds). -/
def modChainOk : Chain :=
  { items := [{ headerHash := "HH1",
                header := { zeroHeader with Typ := "post", EntryLink := "h1" },
                entry := { C := "v1" } }] }

/-- C4 (amended): for a `MOD_REQUEST` whose target exists locally and whose
validation pull succeeds, validation success persists the transition via
`dht.mod` — the old record becomes `Modified` with `FollowHash` pointing at
the new hash — while validation failure records **nothing** (the store is
unchanged; storing the item as `Rejected` is an unimplemented TODO in the
source). -/
theorem C4_mod_receive (env : Env) (chain : Chain) (dht : DhtState)
    (msg : Message ModReq) (resp : ValidateResponse)
    (hex : dhtExists dht msg.Body.H StatusDefault = none)
    (hpull : env.pullValidate msg.From MsgType.VALIDATE_MOD_REQUEST msg.Body.N = .ok resp) :
    (∀ dOpt, ValidateAction env chain (VAct.modA resp.Typ resp.Entry msg.Body.H) resp.Typ
        (some resp.Package) [msg.From] = .ok dOpt →
      ActionModReceive env chain dht msg =
        (dhtMod dht msg.Body.H msg.Body.N, .ret (some "queued") none)
      ∧ ∃ r : DhtRecord, dht.store.lookup msg.Body.H = some r ∧
          (dhtMod dht msg.Body.H msg.Body.N).store.lookup msg.Body.H =
            some { r with status := StatusModified, followHash := some msg.Body.N })
    ∧ (∀ e, ValidateAction env chain (VAct.modA resp.Typ resp.Entry msg.Body.H) resp.Typ
        (some resp.Package) [msg.From] = .error e →
      ActionModReceive env chain dht msg = (dht, .ret (some "queued") (some e))) := by
  constructor
  · intro dOpt hv
    have heq : ActionModReceive env chain dht msg =
        (dhtMod dht msg.Body.H msg.Body.N, .ret (some "queued") none) := by
      simp [ActionModReceive, RunValidationPhase, hex, hpull, hv]
    obtain ⟨r, hr⟩ := dhtExists_none_lookup dht msg.Body.H StatusDefault hex
    exact ⟨heq, r, hr, dhtMod_lookup dht msg.Body.H msg.Body.N r hr⟩
  · intro e hv
    simp [ActionModReceive, RunValidationPhase, hex, hpull, hv]

/-- C4 witness: a validated mod of the live `h1` transitions it to
`Modified` following `EHv2`. -/
theorem C4_mod_receive_witness :
    ActionModReceive modEnvPull modChainOk dht1 modMsg =
      (dhtMod dht1 "h1" "EHv2", .ret (some "queued") none)
    ∧ (dhtMod dht1 "h1" "EHv2").store.lookup "h1" =
        some { typ := "post", bytes := "v1", sources := ["QmOwner"],
               status := StatusModified, followHash := some "EHv2" } := by
  have h := ((C4_mod_receive modEnvPull modChainOk dht1 modMsg modResp rfl rfl).1
    (some postDef) rfl).1
  exact ⟨h, rfl⟩

/-- C4 counterexample: when validation of the new hash fails (here the
receiver's chain lacks the replaced header, so sysvalidation fails with
`ErrHashNotFound`), the handler records **nothing** — the store is
unchanged and in particular contains no `Rejected` item, where the claim
demands one. -/
theorem C4_counterexample_no_rejected_record :
    (ActionModReceive modEnvPull chain0 dht1 modMsg).1 = dht1
    ∧ (ActionModReceive modEnvPull chain0 dht1 modMsg).2 =
        .ret (some "queued") (some HCErr.hashNotFound)
    ∧ dht1.store.all (fun p => p.2.status != StatusRejected) = true := by
  refine ⟨rfl, rfl, rfl⟩

/-- The witness `LINK_REQUEST` on the missing base `b1`. -/
def linkMsg0 : Message LinkReq := { From := "QmPeer", Body := { Base := "b1", Links := "EHlinks" } }

/-- The witness `DEL_REQUEST` on the missing target `h9`. -/
def delMsg0 : Message DelReq := { From := "QmPeer", Body := { H := "h9", By := "EHdel" } }

/-- The witness `MOD_REQUEST` on the missing target `h9`. -/
def modMsg0 : Message ModReq := { From := "QmPeer", Body := { H := "h9", N := "EHv9" } }

/-- C9 (amended): when the precondition record is missing from the local
DHT store, the `MOD` and `DEL` receive handlers abort loudly (panic on the
unimplemented retry path), while the `LINK` receive handler does **not**
panic: it logs, ignores the message and returns the hash-not-found
sentinel (its panic sits behind a second, identical `exists` call and is
unreachable). -/
theorem C9_missing_precondition (env : Env) (chain : Chain) (dht : DhtState)
    (mmsg : Message ModReq) (dmsg : Message DelReq) (lmsg : Message LinkReq) :
    (dht.store.lookup mmsg.Body.H = none →
      ActionModReceive env chain dht mmsg = (dht, .panicked "RETRY-MOD NOT IMPLEMENTED"))
    ∧ (dht.store.lookup dmsg.Body.H = none →
      ActionDelReceive env chain dht dmsg = (dht, .panicked "RETRY-DELETE NOT IMPLEMENTED"))
    ∧ (dht.store.lookup lmsg.Body.Base = none →
      ActionLinkReceive env chain dht lmsg = (dht, .ret none (some HCErr.hashNotFound))) := by
  refine ⟨?_, ?_, ?_⟩ <;> intro h
  · simp [ActionModReceive, dhtExists, h]
  · simp [ActionDelReceive, dhtExists, h]
  · simp [ActionLinkReceive, dhtExists, h]

/-- C9 witness: on the empty store, mod and del receives panic with their
retry messages while the link receive returns hash-not-found. -/
theorem C9_missing_precondition_witness :
    ActionModReceive baseEnv chain0 emptyDht modMsg0 =
      (emptyDht, .panicked "RETRY-MOD NOT IMPLEMENTED")
    ∧ ActionDelReceive baseEnv chain0 emptyDht delMsg0 =
      (emptyDht, .panicked "RETRY-DELETE NOT IMPLEMENTED")
    ∧ ActionLinkReceive baseEnv chain0 emptyDht linkMsg0 =
      (emptyDht, .ret none (some HCErr.hashNotFound)) := by
  have h := C9_missing_precondition baseEnv chain0 emptyDht modMsg0 delMsg0 linkMsg0
  exact ⟨h.1 rfl, h.2.1 rfl, h.2.2 rfl⟩

/-- C9 counterexample: the claim says the `LINK` receive handler panics on
a missing base; on the empty store it instead returns the hash-not-found
error without panicking. -/
theorem C9_counterexample_link_no_panic :
    (ActionLinkReceive baseEnv chain0 emptyDht linkMsg0).2 =
      .ret none (some HCErr.hashNotFound)
    ∧ ((ActionLinkReceive baseEnv chain0 emptyDht linkMsg0).2).isPanic = false
    ∧ emptyDht.store.lookup linkMsg0.Body.Base = none := by
  refine ⟨rfl, rfl, rfl⟩

/-! ### C6: ActionGet.Receive (`action.go` lines 452-494) -/

/-- The reply of a get (Go `GetResp`): the entry (nil when not requested),
the entry type, the sources, and the follow-on hash of a modified record. -/
structure GetResp where
  Entry : Option GobEntry
  EntryType : String
  Sources : List String
  FollowHash : String
deriving DecidableEq, Repr

/-- Modelled from the spec: `dht.get(hash, statusMask, getMask)` of the DHT
store component.  A missing hash is `ErrHashNotFound`.  A record whose
status is `Modified` yields `ErrHashModified` with the follow-on hash as
the returned data (§4.5: "If the record's status is Modified, set
FollowHash in the response"; scenario 2: `get(h1)` returns `HashModified`
with `FollowHash = h2`).  Otherwise the record's status must match the
status mask (`StatusDefault` resolves to `Live`), a masked-out deleted
record is `ErrHashDeleted` and a masked-out rejected one
`ErrHashRejected`; sources are retrieved when the get mask asks for them.
Returns `(data, entryType, sources, status, err)`. -/
def dhtGet (dht : DhtState) (hash : Hash) (statusMask getMask : Nat) :
    String × String × List String × Nat × Option HCErr :=
  match dht.store.lookup hash with
  | none => ("", "", [], 0, some HCErr.hashNotFound)
  | some r =>
    let mask := if statusMask = StatusDefault then StatusLive else statusMask
    let srcs := if getMask &&& GetMaskSources ≠ 0 then r.sources else []
    if r.status = StatusModified then
      (r.followHash.getD "", r.typ, srcs, r.status, some HCErr.hashModified)
    else if mask &&& r.status ≠ 0 then
      (r.bytes, r.typ, srcs, r.status, none)
    else if r.status = StatusDeleted then
      ("", r.typ, srcs, r.status, some HCErr.hashDeleted)
    else if r.status = StatusRejected then
      ("", r.typ, srcs, r.status, some HCErr.hashRejected)
    else ("", r.typ, srcs, r.status, some HCErr.hashNotFound)

/-- The store get ignores get-mask bits other than `Sources`. -/
theorem dhtGet_mask_sources (dht : DhtState) (hash : Hash) (sm m1 m2 : Nat)
    (hm : m1 &&& GetMaskSources = m2 &&& GetMaskSources) :
    dhtGet dht hash sm m1 = dhtGet dht hash sm m2 := by
  unfold dhtGet
  cases dht.store.lookup hash with
  | none => rfl
  | some r => simp only [hm]

/-- Go `ActionGet.Receive`: a `Default` get mask is treated as `Entry`;
`dht.get` is queried with the request's mask widened by `EntryType`; the
entry type is copied into the reply when the effective mask asks for it;
on success the entry is decoded into the reply when the effective mask
asks for it (system Agent/Key entries are wrapped raw, the DNA must never
be served); on `ErrHashModified` the follow-on hash is copied into the
reply's `FollowHash`. -/
def ActionGetReceive (env : Env) (dht : DhtState) (msg : Message GetReq) :
    RcvOut GetResp :=
  let req := msg.Body
  let mask := if req.GetMask = GetMaskDefault then GetMaskEntry else req.GetMask
  match dhtGet dht req.H req.StatusMask (req.GetMask ||| GetMaskEntryType) with
  | (entryData, entryType, srcs, _status, errOpt) =>
    let resp0 : GetResp :=
      { Entry := none, EntryType := "", Sources := srcs, FollowHash := "" }
    let resp1 := if mask &&& GetMaskEntryType ≠ 0
                 then { resp0 with EntryType := entryType } else resp0
    match errOpt with
    | none =>
      if mask &&& GetMaskEntry ≠ 0 then
        if entryType = DNAEntryType then
          .panicked "nobody should actually get the DNA!"
        else if entryType = AgentEntryType ∨ entryType = KeyEntryType then
          .ret (some { resp1 with Entry := some { C := entryData } }) none
        else
          match env.gobUnmarshal entryData with
          | .error e => .ret none (some e)
          | .ok e2 => .ret (some { resp1 with Entry := some e2 }) none
      else .ret (some resp1) none
    | some e =>
      if e = HCErr.hashModified then
        .ret (some { resp1 with FollowHash := entryData }) (some e)
      else .ret (some resp1) (some e)

/-- A `GET_REQUEST` message with the given fields. -/
def getMsg (src : PeerID) (H : Hash) (sm gm : Nat) : Message GetReq :=
  { From := src, Body := { H := H, StatusMask := sm, GetMask := gm } }

/-- The reply `ActionGet.Receive` produces for a `Modified` record: no
entry, the entry type and sources when the masks ask for them, and
`FollowHash` pointing at the replacing hash. -/
def modifiedGetResp (rec : DhtRecord) (gm : Nat) : GetResp :=
  { Entry := none
    EntryType := if (if gm = GetMaskDefault then GetMaskEntry else gm)
        &&& GetMaskEntryType ≠ 0 then rec.typ else ""
    Sources := if (gm ||| GetMaskEntryType) &&& GetMaskSources ≠ 0
        then rec.sources else []
    FollowHash := rec.followHash.getD "" }

/-- C6: a `Default` get mask behaves exactly like `Entry`; the reply
carries an entry type only if the effective mask includes `EntryType` and
an entry only if it includes `Entry`; and when the looked-up record's
status is `Modified` the reply's `FollowHash` is the replacing hash
(alongside the `ErrHashModified` error). -/
theorem C6_get_receive (env : Env) (dht : DhtState) (src : PeerID) (H : Hash)
    (sm gm : Nat) :
    (ActionGetReceive env dht (getMsg src H sm GetMaskDefault) =
      ActionGetReceive env dht (getMsg src H sm GetMaskEntry))
    ∧ (∀ (resp : GetResp) (errOpt : Option HCErr),
        ActionGetReceive env dht (getMsg src H sm gm) = .ret (some resp) errOpt →
        ((if gm = GetMaskDefault then GetMaskEntry else gm) &&& GetMaskEntryType = 0 →
          resp.EntryType = "")
        ∧ ((if gm = GetMaskDefault then GetMaskEntry else gm) &&& GetMaskEntry = 0 →
          resp.Entry = none))
    ∧ (∀ rec : DhtRecord, dht.store.lookup H = some rec → rec.status = StatusModified →
        ActionGetReceive env dht (getMsg src H sm gm) =
          .ret (some (modifiedGetResp rec gm)) (some HCErr.hashModified)) := by
  refine ⟨?_, ?_, ?_⟩
  · simp only [ActionGetReceive, getMsg]
    rw [dhtGet_mask_sources dht H sm (GetMaskDefault ||| GetMaskEntryType)
      (GetMaskEntry ||| GetMaskEntryType) (by decide)]
    norm_num [GetMaskDefault, GetMaskEntry]
  · intro resp errOpt hout
    rcases hg : dhtGet dht H sm (gm ||| GetMaskEntryType) with
      ⟨entryData, entryType, srcs, st, errOpt2⟩
    simp only [ActionGetReceive, getMsg, hg] at hout
    constructor <;> intro hz <;> cases errOpt2
    all_goals (try split at hout)
    all_goals (try split at hout)
    all_goals (try split at hout)
    all_goals (try split at hout)
    all_goals (try split at hout)
    all_goals (try split at hout)
    all_goals (try split at hout)
    all_goals (try (simp only [RcvOut.ret.injEq, Option.some.injEq] at hout))
    all_goals (try (obtain ⟨h1, h2⟩ := hout; subst h1))
    all_goals simp_all
  · intro rec hrec hst
    simp only [ActionGetReceive, getMsg, dhtGet, hrec, hst]
    simp only [StatusModified, reduceIte, modifiedGetResp]
    by_cases hgm : gm = GetMaskDefault
    · subst hgm
      simp only [reduceIte]
      split <;> simp
    · simp only [if_neg hgm]
      split <;> simp

/-- A modified record following `h2`. -/
def dhtModRec : DhtRecord :=
  { typ := "post", bytes := "v1", sources := ["QmOwner"], status := StatusModified,
    followHash := some "h2" }

/-- A store holding the modified record under `h1`. -/
def dhtMod1 : DhtState := { store := [("h1", dhtModRec)], linkIdx := [] }

/-- C6 witness: a default-mask get of the modified `h1` answers
`ErrHashModified` with `FollowHash = h2`, no entry and no entry type, and
behaves identically to an explicit `Entry` mask. -/
theorem C6_get_receive_witness :
    ActionGetReceive baseEnv dhtMod1 (getMsg "QmPeer" "h1" StatusDefault GetMaskDefault) =
      .ret (some { Entry := none, EntryType := "", Sources := [], FollowHash := "h2" })
        (some HCErr.hashModified)
    ∧ ActionGetReceive baseEnv dhtMod1 (getMsg "QmPeer" "h1" StatusDefault GetMaskDefault) =
      ActionGetReceive baseEnv dhtMod1 (getMsg "QmPeer" "h1" StatusDefault GetMaskEntry) := by
  have h3 := (C6_get_receive baseEnv dhtMod1 "QmPeer" "h1" StatusDefault GetMaskDefault).2.2
    dhtModRec rfl rfl
  have h1 := (C6_get_receive baseEnv dhtMod1 "QmPeer" "h1" StatusDefault GetMaskDefault).1
  constructor
  · rw [h3]
    decide
  · exact h1

/-! ### C10: GetValidationResponse (`action.go` lines 131-187) -/

/-- Go `h.GetValidationResponse(a, hash)`: fetch the entry and header for
the hash from the local chain; when the hash is absent but equals the
node's own ID the response is a `KeyEntryType` with zero-valued entry and
header; a DNA entry is never served (panic); system key/agent entries are
returned as-is; for application types the def is looked up, the action's
`CheckValidationRequest` consulted, and the app's packaging request turned
into the response package (a packaging-request error is logged and then
overwritten by the `MakePackage` call, as in the source). -/
def GetValidationResponse (env : Env) (chain : Chain) (a : VAct) (hash : Hash) :
    RcvOut ValidateResponse :=
  match chain.GetEntry hash with
  | .error e =>
    if e = HCErr.hashNotFound then
      if hash = env.nodeIDStr then
        .ret (some { Typ := KeyEntryType, Entry := zeroEntry, Header := zeroHeader,
                     Package := "" }) none
      else .ret none (some e)
    else .ret none (some e)
  | .ok (entry, typ) =>
    match chain.GetEntryHeader hash with
    | .error e => .ret none (some e)
    | .ok hd =>
      if typ = DNAEntryType then
        .panicked "attempt to get validation response for DNA"
      else if typ = KeyEntryType ∨ typ = AgentEntryType then
        .ret (some { Typ := typ, Entry := entry, Header := hd, Package := "" }) none
      else
        match env.getEntryDef typ with
        | .error e => .ret none (some e)
        | .ok d =>
          match CheckValidationRequest a d with
          | .error e => .ret none (some e)
          | .ok _ =>
            match env.makeRibosome typ with
            | .error e => .ret none (some e)
            | .ok _ =>
              let req := match env.validatePackagingReq a d with
                | .ok r => r
                | .error _ => ""
              match env.makePackage req with
              | .error e => .ret none (some e)
              | .ok p =>
                .ret (some { Typ := typ, Entry := entry, Header := hd, Package := p }) none

/-- C10: for a hash absent from the local chain, `GetValidationResponse`
succeeds exactly when the hash equals the node's own ID string — yielding
a `KeyEntryType` response with zero-valued entry and header — and returns
the hash-not-found error unchanged for every other absent hash. -/
theorem C10_getValidationResponse_absent (env : Env) (chain : Chain) (a : VAct)
    (hash : Hash) (habs : chain.GetEntry hash = .error HCErr.hashNotFound) :
    (hash = env.nodeIDStr →
      GetValidationResponse env chain a hash =
        .ret (some { Typ := KeyEntryType, Entry := zeroEntry, Header := zeroHeader,
                     Package := "" }) none)
    ∧ (hash ≠ env.nodeIDStr →
      GetValidationResponse env chain a hash = .ret none (some HCErr.hashNotFound)) := by
  constructor
  · intro h
    subst h
    simp [GetValidationResponse, habs]
  · intro h
    simp [GetValidationResponse, habs, h]

/-- C10 witness: on the empty chain, the node's own ID yields the key
response and any other hash is hash-not-found. -/
theorem C10_getValidationResponse_absent_witness :
    GetValidationResponse baseEnv chain0 (VAct.commitA "post" { C := "x" }) "QmSelf" =
      .ret (some { Typ := KeyEntryType, Entry := zeroEntry, Header := zeroHeader,
                   Package := "" }) none
    ∧ GetValidationResponse baseEnv chain0 (VAct.commitA "post" { C := "x" }) "QmOther" =
      .ret none (some HCErr.hashNotFound) := by
  refine ⟨?_, ?_⟩
  · exact (C10_getValidationResponse_absent baseEnv chain0
      (VAct.commitA "post" { C := "x" }) "QmSelf" rfl).1 rfl
  · exact (C10_getValidationResponse_absent baseEnv chain0
      (VAct.commitA "post" { C := "x" }) "QmOther" rfl).2 (by decide)

end HolochainModel
